import Mathlib

/-!
Verification of the `Shop` page of the Farm-to-Table storefront
(`src/client/src/pages/user/Cart.js`): the product-fetch effect, the
filter/sort pipeline, and the reset/filter/sort event handlers.

JavaScript arrays of products are embedded as `List Product`; numeric
fields as `Int`; strings as Lean `String` (the built-ins `toLowerCase`
and `includes` are modelled on code points, which agrees with UTF-16 on
the ASCII data the page handles).  `Array.prototype.sort` is modelled as
a stable comparison sort (insertion sort) driven by the page's comparator.
-/

namespace Shop

/-- A product record as served by `/customer/getProductListings` and
rendered by the `Shop` page: `_id`, `name`, `imageUrl`, `description`,
`type`, `price`, `quantity`. -/
structure Product where
  id : String
  name : String
  imageUrl : String
  description : String
  type : String
  price : Int
  quantity : Int
deriving Repr, DecidableEq

/-- The four sort keys offered by the page's sort buttons. -/
inductive SortKey where
  | name
  | price
  | type
  | quantity
deriving Repr, DecidableEq

/-- The `filterOption` state object: only the `name` property is ever
written (by `handleFilter("name", value)`); `none` models an absent
property, `some ""` a cleared text box. -/
structure FilterOption where
  name : Option String
deriving Repr, DecidableEq

/-- Model of `String.prototype.startsWith` on char lists. -/
def strStarts : List Char → List Char → Bool
  | [], _ => true
  | _ :: _, [] => false
  | c :: cs, d :: ds => c == d && strStarts cs ds

/-- Helper: does `needle` occur contiguously in the haystack? -/
def strFind (needle : List Char) : List Char → Bool
  | [] => strStarts needle []
  | c :: cs => strStarts needle (c :: cs) || strFind needle cs

/-- Model of `String.prototype.toLowerCase` on the string's code points. -/
def lowerChars (s : String) : List Char :=
  s.toList.map Char.toLower

/-- Model of `String.prototype.includes`: `jsIncludes hay needle` is true
iff `needle` occurs contiguously in `hay`. -/
def jsIncludes (hay needle : List Char) : Bool :=
  strFind needle hay

/-- The filter predicate from the pipeline:
`product.name.toLowerCase().includes(filterOption.name.toLowerCase())`. -/
def nameMatches (s : String) (p : Product) : Bool :=
  jsIncludes (lowerChars p.name) (lowerChars s)

/-- The code units of a string, for JavaScript relational comparison of
strings (code-unit by code-unit, numerically; a proper prefix is
smaller). -/
def codeUnits (s : String) : List Nat :=
  s.toList.map Char.toNat

/-- Lexicographic strict order on code-unit sequences: the JavaScript
`<` on strings. -/
def natsLt : List Nat → List Nat → Bool
  | _, [] => false
  | [], _ :: _ => true
  | c :: cs, d :: ds => decide (c < d) || (decide (c = d) && natsLt cs ds)

/-- JavaScript `a[key] > b[key]` for each sort key (string keys compare
lexicographically, numeric keys numerically). -/
def keyGtb (k : SortKey) (a b : Product) : Bool :=
  match k with
  | .name => natsLt (codeUnits b.name) (codeUnits a.name)
  | .price => decide (b.price < a.price)
  | .type => natsLt (codeUnits b.type) (codeUnits a.type)
  | .quantity => decide (b.quantity < a.quantity)

/-- JavaScript `a[key] < b[key]` for each sort key. -/
def keyLtb (k : SortKey) (a b : Product) : Bool :=
  match k with
  | .name => natsLt (codeUnits a.name) (codeUnits b.name)
  | .price => decide (a.price < b.price)
  | .type => natsLt (codeUnits a.type) (codeUnits b.type)
  | .quantity => decide (a.quantity < b.quantity)

/-- The non-strict ordering on a key, used to state sortedness:
`keyLe k a b` says `a[key] ≤ b[key]`. -/
def keyLe (k : SortKey) (a b : Product) : Prop :=
  match k with
  | .name => natsLt (codeUnits b.name) (codeUnits a.name) = false
  | .price => a.price ≤ b.price
  | .type => natsLt (codeUnits b.type) (codeUnits a.type) = false
  | .quantity => a.quantity ≤ b.quantity

/-- The sort comparator from the pipeline effect:
`if (order === 1) return a[key] > b[key] ? 1 : -1; else return a[key] < b[key] ? 1 : -1;`. -/
def sortComparator (k : SortKey) (o : Int) (a b : Product) : Int :=
  if o = 1 then (if keyGtb k a b then 1 else -1)
  else (if keyLtb k a b then 1 else -1)

/-- Model of `Array.prototype.sort(cmp)` as a stable comparison sort: an
element is placed before the first element it does not compare after. -/
def jsSort (cmp : Product → Product → Int) (l : List Product) : List Product :=
  List.insertionSort (fun a b => cmp a b ≤ 0) l

/-- The filter step of the pipeline effect.  The guard
`if (filterOption.name)` is JavaScript truthiness: an absent `name`
property or the empty string skips the filter. -/
def applyNameFilter (fo : FilterOption) (l : List Product) : List Product :=
  match fo.name with
  | none => l
  | some s => if s.isEmpty then l else l.filter (nameMatches s)

/-- The sort step of the pipeline effect: `Object.entries(sortOption)[0]`
yields the single `(key, order)` pair; absent (`undefined`/`null`)
`sortOption` skips the sort. -/
def applySort (so : Option (SortKey × Int)) (l : List Product) : List Product :=
  match so with
  | none => l
  | some (k, o) => jsSort (sortComparator k o) l

/-- The value computed by the filter/sort `useEffect`:
`let filtered = [...products]` then the optional filter then the optional
in-place sort; the result becomes `filteredProducts`. -/
def runPipeline (products : List Product) (fo : FilterOption)
    (so : Option (SortKey × Int)) : List Product :=
  applySort so (applyNameFilter fo products)

/-- The UI state the handlers touch: `filterOption`, `sortOption`
(`none` models both the initial `undefined` and the reset `null`), and
`activeSort` (key plus the button label "Ascending"/"Descending"). -/
structure UIState where
  filterOption : FilterOption
  sortOption : Option (SortKey × Int)
  activeSort : Option (SortKey × String)
deriving Repr, DecidableEq

/-- `handleReset`: clears the filter object, the sort option and the
active-sort marker (and empties the text box, not modelled). -/
def handleReset (_u : UIState) : UIState :=
  { filterOption := { name := none }, sortOption := none, activeSort := none }

/-- `handleFilter("name", value)`: merges the new value into
`filterOption`. -/
def handleFilter (value : String) (u : UIState) : UIState :=
  { u with filterOption := { name := some value } }

/-- `handleSort(key, order)`: records the active sort and sets
`sortOption` to `{ [key]: order === "Ascending" ? 1 : -1 }`. -/
def handleSort (k : SortKey) (order : String) (u : UIState) : UIState :=
  { u with
    activeSort := some (k, order)
    sortOption := some (k, if order = "Ascending" then 1 else -1) }

/-- The component state the fetch effect touches, plus the
`console.error` sink. -/
structure FetchState where
  products : List Product
  filteredProducts : List Product
  loading : Bool
  errors : List String
deriving Repr, DecidableEq

/-- How a dispatched fetch resolves: a 2xx response with a parsed JSON
body, a non-2xx response (`response.ok` false) with its status text, or
a thrown network error. -/
inductive FetchOutcome where
  | ok (data : List Product)
  | httpError (statusText : String)
  | netError (msg : String)
deriving Repr, DecidableEq

/-- One run of the `fetchProducts` closure from the fetch `useEffect`:
missing token logs and returns early; a 2xx response stores the body in
both `products` and `filteredProducts`; a non-2xx response or a thrown
error only logs; the `finally` block always clears `loading`. -/
def fetchProducts (token : Option String) (outcome : FetchOutcome)
    (s : FetchState) : FetchState :=
  match token with
  | none => { s with errors := s.errors ++ ["No token found"], loading := false }
  | some _ =>
    match outcome with
    | .ok data =>
        { s with products := data, filteredProducts := data, loading := false }
    | .httpError statusText =>
        { s with errors := s.errors ++ ["Error fetching products: " ++ statusText],
                 loading := false }
    | .netError msg =>
        { s with errors := s.errors ++ ["Error fetching products: " ++ msg],
                 loading := false }

/-- A fetch attempt fails when the token is absent, the response is
non-2xx, or the fetch throws. -/
def attemptFails (token : Option String) (outcome : FetchOutcome) : Bool :=
  match token, outcome with
  | none, _ => true
  | some _, .ok _ => false
  | some _, .httpError _ => true
  | some _, .netError _ => true

/-- A heap of JavaScript arrays, to make aliasing observable: references
are allocation indices, `next` is the allocation counter, and
`productsRef`/`filteredRef` are the arrays currently held by the
`products` and `filteredProducts` state. -/
structure JSState where
  heap : Nat → List Product
  next : Nat
  productsRef : Nat
  filteredRef : Nat

/-- Heap update at one reference. -/
def writeHeap (h : Nat → List Product) (r : Nat) (v : List Product) :
    Nat → List Product :=
  fun q => if q = r then v else h q

/-- The filter/sort `useEffect` on the heap model:
`let filtered = [...products]` allocates a fresh copy; `Array.filter`
allocates a new array; `Array.sort` mutates `filtered` in place; finally
`setFilteredProducts(filtered)` repoints `filteredRef`. -/
def pipelineStep (fo : FilterOption) (so : Option (SortKey × Int))
    (s : JSState) : JSState :=
  let r1 := s.next
  let h1 := writeHeap s.heap r1 (s.heap s.productsRef)
  let step2 : Nat × (Nat → List Product) × Nat :=
    match fo.name with
    | none => (r1, h1, s.next + 1)
    | some str =>
        if str.isEmpty then (r1, h1, s.next + 1)
        else (s.next + 1,
              writeHeap h1 (s.next + 1) ((h1 r1).filter (nameMatches str)),
              s.next + 2)
  let r2 := step2.1
  let h2 := step2.2.1
  let n2 := step2.2.2
  let h3 :=
    match so with
    | none => h2
    | some (k, o) => writeHeap h2 r2 (jsSort (sortComparator k o) (h2 r2))
  { heap := h3, next := n2, productsRef := s.productsRef, filteredRef := r2 }

/-- The two products of the spec's worked example, §8:
`{name:"Orange",price:99}` and `{name:"Orange orange",price:299}`. -/
def orange99 : Product :=
  { id := "p1", name := "Orange", imageUrl := "", description := "",
    type := "fruit", price := 99, quantity := 10 }

/-- Second product of the worked example. -/
def orange299 : Product :=
  { id := "p2", name := "Orange orange", imageUrl := "", description := "",
    type := "fruit", price := 299, quantity := 5 }

/-- The product list of the worked example. -/
def orangeList : List Product := [orange99, orange299]

/-- A one-array heap for the witness of the aliasing claim. -/
def heapW : Nat → List Product :=
  fun q => if q = 0 then orangeList else []

/-- A concrete component state whose `products` array lives at
reference 0. -/
def stateW : JSState :=
  { heap := heapW, next := 1, productsRef := 0, filteredRef := 0 }

/-- A concrete fetch state before a first fetch: empty lists, loading. -/
def initialFetchState : FetchState :=
  { products := [], filteredProducts := [], loading := true, errors := [] }

/-- A concrete fetch state that already holds products. -/
def loadedFetchState : FetchState :=
  { products := orangeList, filteredProducts := orangeList, loading := true,
    errors := [] }

theorem natsLt_irrefl : ∀ xs, natsLt xs xs = false
  | [] => rfl
  | c :: cs => by simp [natsLt, natsLt_irrefl cs]

theorem natsLt_trans :
    ∀ xs ys zs : List Nat, natsLt xs ys = true → natsLt ys zs = true →
      natsLt xs zs = true := by
  intro xs
  induction xs with
  | nil =>
    intro ys zs h1 h2
    cases zs with
    | nil => cases ys <;> simp [natsLt] at h2
    | cons z zs => simp [natsLt]
  | cons x xs ih =>
    intro ys zs h1 h2
    cases ys with
    | nil => simp [natsLt] at h1
    | cons y ys =>
      cases zs with
      | nil => simp [natsLt] at h2
      | cons z zs =>
        simp only [natsLt, Bool.or_eq_true, Bool.and_eq_true,
          decide_eq_true_eq] at h1 h2 ⊢
        rcases h1 with h1 | ⟨hxy, h1⟩
        · rcases h2 with h2 | ⟨hyz, h2⟩
          · exact Or.inl (Nat.lt_trans h1 h2)
          · exact Or.inl (hyz ▸ h1)
        · rcases h2 with h2 | ⟨hyz, h2⟩
          · subst hxy; exact Or.inl h2
          · exact Or.inr ⟨hxy.trans hyz, ih ys zs h1 h2⟩

theorem natsLt_trichot :
    ∀ xs ys : List Nat, natsLt xs ys = true ∨ xs = ys ∨ natsLt ys xs = true := by
  intro xs
  induction xs with
  | nil =>
    intro ys
    cases ys with
    | nil => exact Or.inr (Or.inl rfl)
    | cons y ys => exact Or.inl (by simp [natsLt])
  | cons x xs ih =>
    intro ys
    cases ys with
    | nil => exact Or.inr (Or.inr (by simp [natsLt]))
    | cons y ys =>
      rcases Nat.lt_trichotomy x y with h | h | h
      · exact Or.inl (by simp [natsLt, h])
      · subst h
        rcases ih ys with h2 | h2 | h2
        · exact Or.inl (by simp [natsLt, h2])
        · exact Or.inr (Or.inl (by rw [h2]))
        · exact Or.inr (Or.inr (by simp [natsLt, h2]))
      · exact Or.inr (Or.inr (by simp [natsLt, h]))

theorem natsLt_asymm (xs ys : List Nat) (h : natsLt xs ys = true) :
    natsLt ys xs = false := by
  by_contra hc
  rw [Bool.not_eq_false] at hc
  have hx := natsLt_trans xs ys xs h hc
  rw [natsLt_irrefl] at hx
  exact Bool.false_ne_true hx

theorem natsLt_negtrans (xs ys zs : List Nat) (h1 : natsLt ys xs = false)
    (h2 : natsLt zs ys = false) : natsLt zs xs = false := by
  by_contra hc
  rw [Bool.not_eq_false] at hc
  rcases natsLt_trichot ys zs with h | h | h
  · have hx := natsLt_trans ys zs xs h hc
    rw [h1] at hx
    exact Bool.false_ne_true hx
  · rw [← h] at hc
    rw [h1] at hc
    exact Bool.false_ne_true hc
  · rw [h2] at h
    exact Bool.false_ne_true h

theorem keyLtb_eq_keyGtb (k : SortKey) (a b : Product) :
    keyLtb k a b = keyGtb k b a := by
  cases k <;> rfl

theorem keyGtb_irrefl (k : SortKey) (a : Product) : keyGtb k a a = false := by
  cases k <;> simp [keyGtb, natsLt_irrefl]

theorem keyLtb_irrefl (k : SortKey) (a : Product) : keyLtb k a a = false := by
  rw [keyLtb_eq_keyGtb]
  exact keyGtb_irrefl k a

theorem keyGtb_asymm (k : SortKey) (a b : Product) (h : keyGtb k a b = true) :
    keyGtb k b a = false := by
  cases k <;> simp only [keyGtb] at h ⊢
  · exact natsLt_asymm _ _ h
  · simp only [decide_eq_true_eq] at h
    simp only [decide_eq_false_iff_not]
    omega
  · exact natsLt_asymm _ _ h
  · simp only [decide_eq_true_eq] at h
    simp only [decide_eq_false_iff_not]
    omega

theorem keyGtb_negtrans (k : SortKey) (a b c : Product)
    (h1 : keyGtb k a b = false) (h2 : keyGtb k b c = false) :
    keyGtb k a c = false := by
  cases k <;> simp only [keyGtb] at h1 h2 ⊢
  · exact natsLt_negtrans _ _ _ h1 h2
  · simp only [decide_eq_false_iff_not] at h1 h2
    simp only [decide_eq_false_iff_not]
    omega
  · exact natsLt_negtrans _ _ _ h1 h2
  · simp only [decide_eq_false_iff_not] at h1 h2
    simp only [decide_eq_false_iff_not]
    omega

theorem keyLe_iff (k : SortKey) (a b : Product) :
    keyLe k a b ↔ keyGtb k a b = false := by
  cases k <;> simp [keyLe, keyGtb]

theorem comparator_le_iff (k : SortKey) (o : Int) (a b : Product) :
    sortComparator k o a b ≤ 0 ↔
      (if o = 1 then keyGtb k a b = false else keyLtb k a b = false) := by
  unfold sortComparator
  by_cases h : o = 1
  · rw [if_pos h, if_pos h]
    cases hE : keyGtb k a b <;> simp [hE]
  · rw [if_neg h, if_neg h]
    cases hE : keyLtb k a b <;> simp [hE]

/-- C1: whatever the products, the filter and the chosen sort key, the
pipeline's output with that sort active is ordered on the key: with
ascending order (1) every adjacent pair has the smaller key value first,
otherwise every adjacent pair has the larger key value first. -/
theorem C1_pipeline_sorted (P : List Product) (fo : FilterOption)
    (k : SortKey) (o : Int) :
    List.Chain' (fun a b => if o = 1 then keyLe k a b else keyLe k b a)
      (runPipeline P fo (some (k, o))) := by
  have hsorted : List.Sorted (fun a b => sortComparator k o a b ≤ 0)
      (runPipeline P fo (some (k, o))) := by
    haveI htot : IsTotal Product (fun a b => sortComparator k o a b ≤ 0) := by
      constructor
      intro a b
      show sortComparator k o a b ≤ 0 ∨ sortComparator k o b a ≤ 0
      rw [comparator_le_iff, comparator_le_iff]
      by_cases h : o = 1
      · rw [if_pos h, if_pos h]
        cases hE : keyGtb k a b with
        | false => exact Or.inl rfl
        | true => exact Or.inr (keyGtb_asymm k a b hE)
      · rw [if_neg h, if_neg h]
        rw [keyLtb_eq_keyGtb, keyLtb_eq_keyGtb]
        cases hE : keyGtb k b a with
        | false => exact Or.inl rfl
        | true => exact Or.inr (keyGtb_asymm k b a hE)
    haveI htrans : IsTrans Product (fun a b => sortComparator k o a b ≤ 0) := by
      constructor
      intro a b c hab hbc
      have hab' : sortComparator k o a b ≤ 0 := hab
      have hbc' : sortComparator k o b c ≤ 0 := hbc
      show sortComparator k o a c ≤ 0
      rw [comparator_le_iff] at hab' hbc' ⊢
      by_cases h : o = 1
      · rw [if_pos h] at hab' hbc' ⊢
        exact keyGtb_negtrans k a b c hab' hbc'
      · rw [if_neg h] at hab' hbc' ⊢
        rw [keyLtb_eq_keyGtb] at hab' hbc' ⊢
        exact keyGtb_negtrans k c b a hbc' hab'
    show List.Sorted _ (jsSort (sortComparator k o) (applyNameFilter fo P))
    unfold jsSort
    exact List.sorted_insertionSort _ _
  refine List.Chain'.imp ?_ (List.Pairwise.chain' hsorted)
  intro a b hr
  have hr' : sortComparator k o a b ≤ 0 := hr
  rw [comparator_le_iff] at hr'
  by_cases h : o = 1
  · rw [if_pos h] at hr' ⊢
    exact (keyLe_iff k a b).mpr hr'
  · rw [if_neg h] at hr' ⊢
    rw [keyLtb_eq_keyGtb] at hr'
    exact (keyLe_iff k b a).mpr hr'

/-- C2: the sort comparator never returns 0 for any key, order and pair
of products; with ascending order (1) it returns 1 exactly when
`a[key] > b[key]` and -1 otherwise, with descending order (-1) it
returns 1 exactly when `a[key] < b[key]` and -1 otherwise; in
particular on two equal operands it falls through to the default branch
and returns -1. -/
theorem C2_comparator_never_zero (k : SortKey) (o : Int) (a b : Product) :
    sortComparator k o a b ≠ 0 ∧
    sortComparator k 1 a b = (if keyGtb k a b then 1 else -1) ∧
    sortComparator k (-1) a b = (if keyLtb k a b then 1 else -1) ∧
    sortComparator k o a a = -1 := by
  refine ⟨?_, ?_, ?_, ?_⟩
  · unfold sortComparator
    by_cases h : o = 1
    · rw [if_pos h]
      cases keyGtb k a b <;> simp
    · rw [if_neg h]
      cases keyLtb k a b <;> simp
  · simp [sortComparator]
  · simp [sortComparator]
  · unfold sortComparator
    by_cases h : o = 1
    · rw [if_pos h, keyGtb_irrefl, if_neg Bool.false_ne_true]
    · rw [if_neg h, keyLtb_irrefl, if_neg Bool.false_ne_true]

/-- C3: every failing fetch attempt (missing token, non-2xx response or
network error) leaves the `products` state at its prior value — in
particular empty if it was empty — and ends with the loading flag false,
having been true before the attempt. -/
theorem C3_failure_preserves_products (tok : Option String)
    (outc : FetchOutcome) (s : FetchState)
    (hfail : attemptFails tok outc = true) (hload : s.loading = true) :
    (fetchProducts tok outc s).products = s.products ∧
    s.loading = true ∧ (fetchProducts tok outc s).loading = false := by
  cases tok with
  | none => exact ⟨rfl, hload, rfl⟩
  | some t =>
    cases outc with
    | ok data => simp [attemptFails] at hfail
    | httpError st => exact ⟨rfl, hload, rfl⟩
    | netError m => exact ⟨rfl, hload, rfl⟩

/-- Witness for C3 at a concrete failing fetch: non-2xx response over an
empty prior list. -/
theorem C3_failure_preserves_products_witness :
    (attemptFails (some "tok") (.httpError "Internal Server Error") = true ∧
      initialFetchState.loading = true) ∧
    ((fetchProducts (some "tok") (.httpError "Internal Server Error")
        initialFetchState).products = initialFetchState.products ∧
      initialFetchState.loading = true ∧
      (fetchProducts (some "tok") (.httpError "Internal Server Error")
        initialFetchState).loading = false) :=
  ⟨⟨by decide, by decide⟩,
    C3_failure_preserves_products (some "tok")
      (.httpError "Internal Server Error") initialFetchState
      (by decide) (by decide)⟩

/-- C4 as stated is false: a failing fetch over a non-empty prior
product list leaves the list at its prior non-empty value, not empty. -/
theorem C4_counterexample :
    attemptFails (some "tok") (.httpError "Internal Server Error") = true ∧
    loadedFetchState.products ≠ [] ∧
    (fetchProducts (some "tok") (.httpError "Internal Server Error")
      loadedFetchState).products ≠ [] := by
  refine ⟨by decide, by decide, by decide⟩

/-- C4 amended: every failing fetch attempt appends exactly one entry to
the error log and leaves the product list at its prior value (hence
empty only when it was empty before the attempt). -/
theorem C4_failure_logged_products_prior (tok : Option String)
    (outc : FetchOutcome) (s : FetchState)
    (hfail : attemptFails tok outc = true) :
    (∃ msg, (fetchProducts tok outc s).errors = s.errors ++ [msg]) ∧
    (fetchProducts tok outc s).products = s.products := by
  cases tok with
  | none => exact ⟨⟨"No token found", rfl⟩, rfl⟩
  | some t =>
    cases outc with
    | ok data => simp [attemptFails] at hfail
    | httpError st =>
        exact ⟨⟨"Error fetching products: " ++ st, rfl⟩, rfl⟩
    | netError m =>
        exact ⟨⟨"Error fetching products: " ++ m, rfl⟩, rfl⟩

/-- Witness for the amended C4 at a concrete failing fetch over a
non-empty prior list. -/
theorem C4_failure_logged_products_prior_witness :
    attemptFails (some "tok") (.netError "TypeError: failed to fetch") = true ∧
    ((∃ msg, (fetchProducts (some "tok")
        (.netError "TypeError: failed to fetch") loadedFetchState).errors =
        loadedFetchState.errors ++ [msg]) ∧
      (fetchProducts (some "tok") (.netError "TypeError: failed to fetch")
        loadedFetchState).products = loadedFetchState.products) :=
  ⟨by decide,
    C4_failure_logged_products_prior (some "tok")
      (.netError "TypeError: failed to fetch") loadedFetchState (by decide)⟩

/-- C5: after `handleReset` (empty filter object, null sort option) the
pipeline returns the `products` list unchanged, in contents and order. -/
theorem C5_reset_restores_products (P : List Product) (u : UIState) :
    runPipeline P (handleReset u).filterOption (handleReset u).sortOption
      = P := rfl

/-- C7: the name-filter step of the pipeline is idempotent — filtering an
already filtered list with the same filter option changes nothing. -/
theorem C7_filter_idempotent (P : List Product) (fo : FilterOption) :
    applyNameFilter fo (applyNameFilter fo P) = applyNameFilter fo P := by
  obtain ⟨nm⟩ := fo
  cases nm with
  | none => rfl
  | some s =>
    by_cases h : s.isEmpty
    · simp [applyNameFilter, h]
    · simp only [applyNameFilter, if_neg h]
      rw [List.filter_filter]
      simp

/-- C6: with a non-empty filter string the filter step keeps exactly the
products whose lowercased name contains the lowercased filter string;
on the spec's worked example, filtering on "orange" in either letter
case keeps both products, and sorting by price descending puts the
price-299 product before the price-99 one. -/
theorem C6_filter_exact (P : List Product) (s : String) (p : Product)
    (hs : s.isEmpty = false) :
    (p ∈ runPipeline P { name := some s } none ↔
      p ∈ P ∧ nameMatches s p = true) ∧
    runPipeline orangeList { name := some "orange" } none = orangeList ∧
    runPipeline orangeList { name := some "ORANGE" } none = orangeList ∧
    runPipeline orangeList { name := none } (some (.price, -1))
      = [orange299, orange99] := by
  refine ⟨?_, by decide, by decide, by decide⟩
  show p ∈ applyNameFilter { name := some s } P ↔ _
  simp [applyNameFilter, hs, List.mem_filter]

/-- Witness for C6 on the worked example: the product named "Orange"
passes the "orange" filter. -/
theorem C6_filter_exact_witness :
    ("orange" : String).isEmpty = false ∧
    ((orange99 ∈ runPipeline orangeList { name := some "orange" } none ↔
        orange99 ∈ orangeList ∧ nameMatches "orange" orange99 = true) ∧
      runPipeline orangeList { name := some "orange" } none = orangeList ∧
      runPipeline orangeList { name := some "ORANGE" } none = orangeList ∧
      runPipeline orangeList { name := none } (some (.price, -1))
        = [orange299, orange99]) :=
  ⟨by decide, C6_filter_exact orangeList "orange" orange99 (by decide)⟩

/-- C9: on the heap model, the pipeline effect never touches the array
held by the `products` state: it copies it to a fresh reference, filters
and sorts the copy, and repoints `filteredProducts` to a reference
distinct from the `products` one, whose contents are the pure pipeline
of the `products` contents. -/
theorem C9_no_mutation (fo : FilterOption) (so : Option (SortKey × Int))
    (s : JSState) (h : s.productsRef < s.next) :
    (pipelineStep fo so s).productsRef = s.productsRef ∧
    (pipelineStep fo so s).heap s.productsRef = s.heap s.productsRef ∧
    (pipelineStep fo so s).filteredRef ≠ s.productsRef ∧
    (pipelineStep fo so s).heap (pipelineStep fo so s).filteredRef
      = runPipeline (s.heap s.productsRef) fo so := by
  obtain ⟨heap, next, pr, fr⟩ := s
  simp only at h
  have hne1 : pr ≠ next := Nat.ne_of_lt h
  have hne2 : pr ≠ next + 1 := by omega
  have hne3 : next ≠ next + 1 := by omega
  obtain ⟨nm⟩ := fo
  cases nm with
  | none =>
    cases so with
    | none =>
      refine ⟨rfl, ?_, ?_, ?_⟩ <;>
        simp [pipelineStep, writeHeap, runPipeline, applySort,
          applyNameFilter, hne1] <;> omega
    | some ko =>
      obtain ⟨k, o⟩ := ko
      refine ⟨rfl, ?_, ?_, ?_⟩ <;>
        simp [pipelineStep, writeHeap, runPipeline, applySort,
          applyNameFilter, hne1] <;> omega
  | some str =>
    by_cases hE : str.isEmpty = true
    · cases so with
      | none =>
        refine ⟨rfl, ?_, ?_, ?_⟩ <;>
          simp [pipelineStep, writeHeap, runPipeline, applySort,
            applyNameFilter, hne1, hE] <;> omega
      | some ko =>
        obtain ⟨k, o⟩ := ko
        refine ⟨rfl, ?_, ?_, ?_⟩ <;>
          simp [pipelineStep, writeHeap, runPipeline, applySort,
            applyNameFilter, hne1, hE] <;> omega
    · rw [Bool.not_eq_true] at hE
      cases so with
      | none =>
        refine ⟨rfl, ?_, ?_, ?_⟩ <;>
          simp [pipelineStep, writeHeap, runPipeline, applySort,
            applyNameFilter, hne1, hne2, hne3, hE] <;> omega
      | some ko =>
        obtain ⟨k, o⟩ := ko
        refine ⟨rfl, ?_, ?_, ?_⟩ <;>
          simp [pipelineStep, writeHeap, runPipeline, applySort,
            applyNameFilter, hne1, hne2, hne3, hE] <;> omega

/-- Witness for C9: a concrete one-array heap, an "orange" filter and a
price-descending sort. -/
theorem C9_no_mutation_witness :
    stateW.productsRef < stateW.next ∧
    ((pipelineStep { name := some "orange" } (some (.price, -1))
        stateW).productsRef = stateW.productsRef ∧
      (pipelineStep { name := some "orange" } (some (.price, -1))
        stateW).heap stateW.productsRef = stateW.heap stateW.productsRef ∧
      (pipelineStep { name := some "orange" } (some (.price, -1))
        stateW).filteredRef ≠ stateW.productsRef ∧
      (pipelineStep { name := some "orange" } (some (.price, -1))
        stateW).heap
        (pipelineStep { name := some "orange" } (some (.price, -1))
          stateW).filteredRef
        = runPipeline (stateW.heap stateW.productsRef)
            { name := some "orange" } (some (.price, -1))) :=
  ⟨by decide,
    C9_no_mutation { name := some "orange" } (some (.price, -1)) stateW
      (by decide)⟩

/-- C8: a successful fetch (valid token, 2xx response) replaces both the
`products` and the `filteredProducts` state with the parsed response
body. -/
theorem C8_success_replaces_lists (tok : String) (data : List Product)
    (s : FetchState) :
    (fetchProducts (some tok) (.ok data) s).products = data ∧
    (fetchProducts (some tok) (.ok data) s).filteredProducts = data :=
  ⟨rfl, rfl⟩

/-- C10: an empty filter string is falsy, so the filter step is skipped
entirely: the pipeline behaves exactly as with no name filter, and with
no sort active (as after clearing the search box) it returns the product
list unchanged. -/
theorem C10_empty_filter_skipped (P : List Product)
    (so : Option (SortKey × Int)) (u : UIState) :
    applyNameFilter { name := some "" } P = P ∧
    runPipeline P { name := some "" } so = runPipeline P { name := none } so ∧
    runPipeline P ((handleFilter "" u).filterOption) none = P :=
  ⟨rfl, rfl, rfl⟩

end Shop
